import Mathlib

/-!
Verification of the raven-go Sentry client (event capture and delivery
pipeline) against its natural-language specification.

The Go sources are shallowly embedded: strings are `String` or `List Char`,
byte slices are `List Nat` (each element `< 256`), Go maps are association
lists, channels are modelled by the list of values written to them together
with their capacity, and the bounded delivery queue is a list whose length
is bounded by `MaxQueueBuffer`.  Randomness (`crypto/rand` bytes feeding
`uuid`) and the clock (`time.Now`) are passed in as explicit arguments.
-/

set_option autoImplicit false

abbrev Chars := List Char

/-! ## Connection configuration: `Client.SetDSN`

`SetDSN` (client.go / unnamed part_006) runs on the result of
`net/url.Parse`, so the embedding starts from the parsed URI: scheme,
optional user-info (username and optional password), host, and path.
-/

/-- Parsed user-info of a URI, as produced by `net/url.Parse`:
`uri.User.Username()` and the optional `uri.User.Password()`. -/
structure UserInfo where
  username : Chars
  password : Option Chars
deriving DecidableEq, Repr

/-- The fields of a parsed URI that `SetDSN` reads. -/
structure URI where
  scheme : Chars
  user : Option UserInfo
  host : Chars
  path : Chars
deriving DecidableEq, Repr

/-- The client fields assigned by `SetDSN`: `client.url`,
`client.projectID`, `client.authHeader`. -/
structure DSNConfig where
  url : Chars
  projectID : Chars
  authHeader : Chars
deriving DecidableEq, Repr

/-- The three error returns of `SetDSN`:
"raven: dsn missing public key and/or private key",
"raven: dsn missing private key", "raven: dsn missing project id". -/
inductive DSNError where
  | missingKeys
  | missingSecretKey
  | missingProjectID
deriving DecidableEq, Repr

/-- Index of the last occurrence of a character, `strings.LastIndex`. -/
def lastIndexOf (c : Char) : Chars → Option Nat
  | [] => none
  | x :: xs =>
    match lastIndexOf c xs with
    | some i => some (i + 1)
    | none => if x = c then some 0 else none

/-- `uri.String()` after `uri.User = nil`: the user-info is gone, so the
rendering is scheme, "://", host, path. -/
def renderURI (scheme host path : Chars) : Chars :=
  scheme ++ ("://").toList ++ host ++ path

/-- The `fmt.Sprintf` producing `client.authHeader`. -/
def authHeaderFor (publicKey secretKey : Chars) : Chars :=
  ("Sentry sentry_version=4, sentry_key=").toList ++ publicKey
    ++ (", sentry_secret=").toList ++ secretKey

/-- `Client.SetDSN` (src/unnamed/part_006 lines 81-117, identically in
src/client.go), from the parsed URI on: validates the user-info, rewrites
the path by inserting `api/<projectID>/store/`, and assigns the client's
`projectID`, `url` and `authHeader` fields.  Returns the updated client
fields and the error, mirroring the in-place mutation of `client`. -/
def SetDSN (uri : URI) (client : DSNConfig) : DSNConfig × Option DSNError :=
  match uri.user with
  | none => (client, some DSNError.missingKeys)
  | some user =>
    match user.password with
    | none => (client, some DSNError.missingSecretKey)
    | some secretKey =>
      let (client1, path1) :=
        match lastIndexOf '/' uri.path with
        | some idx =>
          ({ client with projectID := uri.path.drop (idx + 1) },
           uri.path.take (idx + 1) ++ ("api/").toList
             ++ uri.path.drop (idx + 1) ++ ("/store/").toList)
        | none => (client, uri.path)
      if client1.projectID = [] then
        (client1, some DSNError.missingProjectID)
      else
        ({ client1 with
             url := renderURI uri.scheme uri.host path1,
             authHeader := authHeaderFor user.username secretKey },
         none)

lemma lastIndexOf_eq_none {c : Char} {s : Chars} (h : c ∉ s) :
    lastIndexOf c s = none := by
  induction s with
  | nil => rfl
  | cons x xs ih =>
    simp only [List.mem_cons, not_or] at h
    simp [lastIndexOf, ih h.2, h.1, Ne.symm h.1]

lemma lastIndexOf_append_cons {pre id : Chars} (h : '/' ∉ id) :
    lastIndexOf '/' (pre ++ '/' :: id) = some pre.length := by
  induction pre with
  | nil => simp [lastIndexOf, lastIndexOf_eq_none h]
  | cons x xs ih => simp [lastIndexOf, ih]

lemma take_append_cons (pre id : Chars) (c : Char) :
    (pre ++ c :: id).take (pre.length + 1) = pre ++ [c] := by
  induction pre with
  | nil => simp
  | cons x xs ih => simp [ih]

lemma drop_append_cons (pre id : Chars) (c : Char) :
    (pre ++ c :: id).drop (pre.length + 1) = id := by
  induction pre with
  | nil => simp
  | cons x xs ih => simp [ih]

/-- Claim C5: for every DSN of the valid shape `scheme://u:p@host/path/id`
with a non-empty last path segment `id`, `SetDSN` succeeds and yields
`projectID = id`, a store URL ending in `api/<id>/store/` with the
user-info stripped, and an auth header containing both `u` and `p`
verbatim; and `SetDSN` fails when the URI carries no user-info, when the
user-info has no password component, or when the last path segment is
empty. -/
theorem setDSN_valid_shape_and_failures :
    (∀ (scheme u p host pre id : Chars) (st : DSNConfig),
      '/' ∉ id → id ≠ [] →
      SetDSN ⟨scheme, some ⟨u, some p⟩, host, pre ++ '/' :: id⟩ st =
        ({ url := scheme ++ ("://").toList ++ host ++ pre
                   ++ '/' :: (("api/").toList ++ id ++ ("/store/").toList),
           projectID := id,
           authHeader := authHeaderFor u p }, none) ∧
      (∃ q, (SetDSN ⟨scheme, some ⟨u, some p⟩, host, pre ++ '/' :: id⟩ st).1.url =
              q ++ ("api/").toList ++ id ++ ("/store/").toList) ∧
      (∃ a b, (SetDSN ⟨scheme, some ⟨u, some p⟩, host, pre ++ '/' :: id⟩ st).1.authHeader =
              a ++ u ++ b) ∧
      (∃ a, (SetDSN ⟨scheme, some ⟨u, some p⟩, host, pre ++ '/' :: id⟩ st).1.authHeader =
              a ++ p)) ∧
    (∀ (uri : URI) (st : DSNConfig), uri.user = none →
      SetDSN uri st = (st, some DSNError.missingKeys)) ∧
    (∀ (uri : URI) (st : DSNConfig) (u : Chars),
      uri.user = some ⟨u, none⟩ →
      SetDSN uri st = (st, some DSNError.missingSecretKey)) ∧
    (∀ (scheme u p host pre : Chars) (st : DSNConfig),
      (SetDSN ⟨scheme, some ⟨u, some p⟩, host, pre ++ ['/']⟩ st).2 =
        some DSNError.missingProjectID) := by
  refine ⟨?_, ?_, ?_, ?_⟩
  · intro scheme u p host pre id st hid hne
    have hlast := @lastIndexOf_append_cons pre id hid
    have htake := take_append_cons pre id '/'
    have hdrop := drop_append_cons pre id '/'
    constructor
    · simp only [SetDSN, hlast, htake, hdrop, renderURI]
      rw [if_neg hne]
      simp [List.append_assoc]
    · refine ⟨?_, ?_, ?_⟩ <;>
        simp only [SetDSN, hlast, htake, hdrop, renderURI] <;>
        rw [if_neg hne]
      · exact ⟨scheme ++ ("://").toList ++ host ++ pre ++ ['/'], by
          simp [List.append_assoc]⟩
      · exact ⟨("Sentry sentry_version=4, sentry_key=").toList,
          (", sentry_secret=").toList ++ p, by simp [authHeaderFor, List.append_assoc]⟩
      · exact ⟨("Sentry sentry_version=4, sentry_key=").toList ++ u
            ++ (", sentry_secret=").toList, by simp [authHeaderFor, List.append_assoc]⟩
  · intro uri st h
    simp [SetDSN, h]
  · intro uri st u h
    simp [SetDSN, h]
  · intro scheme u p host pre st
    have hlast : lastIndexOf '/' (pre ++ ['/']) = some pre.length := by
      have := @lastIndexOf_append_cons pre [] (by simp)
      simpa using this
    have hdrop : (pre ++ ['/']).drop (pre.length + 1) = [] :=
      drop_append_cons pre [] '/'
    simp [SetDSN, hlast, hdrop]

/-- Witness for C5 at a concrete DSN `https://pk:sk@example.com/base/42`. -/
theorem setDSN_valid_shape_and_failures_witness :
    ('/' ∉ ("42").toList) ∧
    (SetDSN ⟨("https").toList, some ⟨("pk").toList, some ("sk").toList⟩,
             ("example.com").toList, ("/base").toList ++ '/' :: ("42").toList⟩
            ⟨[], [], []⟩).1.projectID = ("42").toList := by
  refine ⟨by decide, ?_⟩
  have h := (setDSN_valid_shape_and_failures.1 ("https").toList ("pk").toList
    ("sk").toList ("example.com").toList ("/base").toList ("42").toList
    ⟨[], [], []⟩ (by decide) (by decide)).1
  rw [h]

/-- Claim C10: whenever `SetDSN` returns an error, the stored `url` and
`authHeader` are unchanged (they are assigned only after every validation
check passed), while `projectID` is not covered by that guarantee: a
failing call whose path ends in `/` overwrites it. -/
theorem setDSN_error_leaves_url_auth_unchanged :
    (∀ (uri : URI) (st : DSNConfig) (e : DSNError),
      (SetDSN uri st).2 = some e →
      (SetDSN uri st).1.url = st.url ∧
      (SetDSN uri st).1.authHeader = st.authHeader) ∧
    (∃ (uri : URI) (st : DSNConfig),
      (SetDSN uri st).2.isSome ∧ (SetDSN uri st).1.projectID ≠ st.projectID) := by
  constructor
  · intro uri st e h
    rcases uri with ⟨scheme, user, host, path⟩
    rcases user with _ | ⟨un, pw⟩
    · simp [SetDSN]
    · rcases pw with _ | sk
      · simp [SetDSN]
      · cases hidx : lastIndexOf '/' path with
        | none =>
          simp only [SetDSN, hidx] at h ⊢
          split at h
          case isTrue hc => rw [if_pos hc]; exact ⟨rfl, rfl⟩
          case isFalse hc => simp at h
        | some idx =>
          simp only [SetDSN, hidx] at h ⊢
          split at h
          case isTrue hc => rw [if_pos hc]; exact ⟨rfl, rfl⟩
          case isFalse hc => simp at h
  · exact ⟨⟨("s").toList, some ⟨("u").toList, some ("p").toList⟩,
      ("h").toList, ['/']⟩, ⟨[], ['x'], []⟩, by decide, by decide⟩

/-- Witness for C10: a DSN without user-info fails and leaves the stored
URL and auth header untouched. -/
theorem setDSN_error_frame_witness :
    (SetDSN ⟨("s").toList, none, ("h").toList, ("/p/x").toList⟩
       ⟨("u0").toList, ("pid0").toList, ("a0").toList⟩).2 =
        some DSNError.missingKeys ∧
    (SetDSN ⟨("s").toList, none, ("h").toList, ("/p/x").toList⟩
       ⟨("u0").toList, ("pid0").toList, ("a0").toList⟩).1.url = ("u0").toList ∧
    (SetDSN ⟨("s").toList, none, ("h").toList, ("/p/x").toList⟩
       ⟨("u0").toList, ("pid0").toList, ("a0").toList⟩).1.authHeader = ("a0").toList :=
  ⟨by decide,
   (setDSN_error_leaves_url_auth_unchanged.1 _ _ DSNError.missingKeys (by decide)).1,
   (setDSN_error_leaves_url_auth_unchanged.1 _ _ DSNError.missingKeys (by decide)).2⟩

/-! ## Events, interfaces and required-field finalization

JSON values, for the payloads of attached interfaces and for the wire
codec. -/

/-- A JSON value. -/
inductive J where
  | str (s : String)
  | num (n : Int)
  | arr (l : List J)
  | obj (l : List (String × J))

/-- A Sentry interface attached to an event.  The core reads exactly two
capabilities: `Class()` (the classification tag used as a JSON key) and,
when the interface implements `Culpriter`, `Culprit()`.  `culprit = none`
models an interface that is not a `Culpriter`; `payload` is the JSON the
interface marshals to. -/
structure Iface where
  Class : String
  payload : J
  culprit : Option String

/-- A `Tag` key/value pair (src/event.go). -/
structure Tag where
  Key : String
  Value : String
deriving DecidableEq, Repr

/-- Severity constants `(iota + 1) * 10` (src/client.go). -/
def DEBUG : Nat := 10

def INFO : Nat := 20

def WARNING : Nat := 30

def ERROR : Nat := 40

def FATAL : Nat := 50

/-- One lowercase hex digit, as produced by `encoding/hex`. -/
def hexDigit (n : Nat) : Char := (("0123456789abcdef").toList).getD n 'x'

/-- `hex.EncodeToString`: two lowercase hex digits per byte, high nibble
first. -/
def hexEncode : List Nat → Chars
  | [] => []
  | b :: bs => hexDigit (b / 16) :: hexDigit (b % 16) :: hexEncode bs

/-- The version/variant bit-twiddling of `uuid` (src/client.go lines
156-159): `id[6] &= 0x0F; id[6] |= 0x40` is `b % 16 + 64`, and
`id[8] &= 0x3F; id[8] |= 0x80` is `b % 64 + 128`. -/
def setUUIDBitsFrom (i : Nat) : List Nat → List Nat
  | [] => []
  | b :: bs =>
    (if i = 6 then b % 16 + 64 else if i = 8 then b % 64 + 128 else b)
      :: setUUIDBitsFrom (i + 1) bs

/-- `uuid` (src/client.go lines 150-161): sets the UUID version-4 and IETF
variant bits on 16 random bytes and hex-encodes them.  The random bytes
read from `crypto/rand` are an explicit argument; the read-error path
cannot occur in the model. -/
def uuid (randBytes : List Nat) : String :=
  String.mk (hexEncode (setUUIDBitsFrom 0 randBytes))

/-- A 32-character lowercase hex string. -/
def isHex32 (s : String) : Prop :=
  s.data.length = 32 ∧ ∀ c ∈ s.data, c ∈ ("0123456789abcdef").toList

instance (s : String) : Decidable (isHex32 s) := by
  unfold isHex32; infer_instance

/-- The culprit-derivation loop shared by `EventInfo.Init` and
`Event.FillDefaults`: scan the interfaces in order; each `Culpriter`'s
culprit is taken, stopping at the first non-empty one. -/
def deriveCulprit : List Iface → String
  | [] => ""
  | i :: rest =>
    match i.culprit with
    | some c => if c = "" then deriveCulprit rest else c
    | none => deriveCulprit rest

/-- `EventInfo` (src/client.go lines 74-94).  `timestamp` is an abstract
instant (`0` is Go's zero `time.Time`), `level` is the `Severity` integer
(`0` is unset), `extra` is an association list standing for the
`map[string]interface{}`. -/
structure EventInfo where
  message : String
  eventID : String
  project : String
  timestamp : Nat
  level : Nat
  logger : String
  platform : String
  culprit : String
  tags : List Tag
  serverName : String
  modules : List (List (String × String))
  extra : List (String × String)
  interfaces : List Iface

/-- The only construction error of `EventInfo.Init`:
"raven: empty message". -/
inductive InitError where
  | emptyMessage
deriving DecidableEq, Repr

/-- `EventInfo.Init` (src/client.go lines 103-142).  Each `if` of the
source fills one field from its own original value only, so the sequential
in-place updates are rendered as a single record update.  `project` is the
client's current project id, `now` models `time.Now()` (never `0` in Go),
`host` the process hostname. -/
def Init (eventInfo : EventInfo) (project : String) (randBytes : List Nat)
    (now : Nat) (host : String) : Except InitError EventInfo :=
  if eventInfo.message = "" then Except.error InitError.emptyMessage
  else Except.ok { eventInfo with
    project := if eventInfo.project = "" then project else eventInfo.project,
    eventID := if eventInfo.eventID = "" then uuid randBytes else eventInfo.eventID,
    timestamp := if eventInfo.timestamp = 0 then now else eventInfo.timestamp,
    level := if eventInfo.level = 0 then ERROR else eventInfo.level,
    logger := if eventInfo.logger = "" then ("root") else eventInfo.logger,
    serverName := if eventInfo.serverName = "" then host else eventInfo.serverName,
    culprit := if eventInfo.culprit = "" then deriveCulprit eventInfo.interfaces
               else eventInfo.culprit }

lemma hexEncode_length (bs : List Nat) : (hexEncode bs).length = 2 * bs.length := by
  induction bs with
  | nil => rfl
  | cons b bs ih => simp [hexEncode, ih]; omega

lemma hexDigit_mem_of_lt : ∀ n < 16, hexDigit n ∈ ("0123456789abcdef").toList := by
  decide

lemma hexEncode_mem {bs : List Nat} (hb : ∀ b ∈ bs, b < 256) {c : Char}
    (hc : c ∈ hexEncode bs) : c ∈ ("0123456789abcdef").toList := by
  induction bs with
  | nil => simp [hexEncode] at hc
  | cons b bs ih =>
    have hb0 : b < 256 := hb b (by simp)
    simp only [hexEncode, List.mem_cons] at hc
    rcases hc with h | h | h
    · exact h ▸ hexDigit_mem_of_lt _ (by omega)
    · exact h ▸ hexDigit_mem_of_lt _ (by omega)
    · exact ih (fun x hx => hb x (by simp [hx])) h

lemma setUUIDBitsFrom_length : ∀ (i : Nat) (bs : List Nat),
    (setUUIDBitsFrom i bs).length = bs.length := by
  intro i bs
  induction bs generalizing i with
  | nil => rfl
  | cons b bs ih => simp [setUUIDBitsFrom, ih]

lemma setUUIDBitsFrom_bounds : ∀ (i : Nat) (bs : List Nat),
    (∀ b ∈ bs, b < 256) → ∀ x ∈ setUUIDBitsFrom i bs, x < 256 := by
  intro i bs
  induction bs generalizing i with
  | nil => intro _ x hx; simp [setUUIDBitsFrom] at hx
  | cons b bs ih =>
    intro hb x hx
    have hb0 : b < 256 := hb b (by simp)
    simp only [setUUIDBitsFrom, List.mem_cons] at hx
    rcases hx with h | h
    · subst h
      split <;> [omega; skip]
      split <;> omega
    · exact ih (i + 1) (fun y hy => hb y (by simp [hy])) x h

/-- A generated event id is always 32 lowercase hex characters. -/
lemma uuid_isHex32 {bytes : List Nat} (hlen : bytes.length = 16)
    (hb : ∀ b ∈ bytes, b < 256) : isHex32 (uuid bytes) := by
  constructor
  · show (hexEncode (setUUIDBitsFrom 0 bytes)).length = 32
    rw [hexEncode_length, setUUIDBitsFrom_length, hlen]
  · intro c hc
    exact hexEncode_mem (setUUIDBitsFrom_bounds 0 bytes hb) hc

lemma deriveCulprit_eq_head_of_nonempty (ifs : List Iface) :
    deriveCulprit ifs =
      (((ifs.filterMap Iface.culprit).filter (fun s => s ≠ "")).headD "") := by
  induction ifs with
  | nil => rfl
  | cons i rest ih =>
    cases hc : i.culprit with
    | none => simp [deriveCulprit, hc, ih]
    | some c =>
      by_cases hce : c = ""
      · simp [deriveCulprit, hc, hce, ih]
      · simp [deriveCulprit, hc, hce]

/-- Concrete input refuting claim C3 as stated: a caller-supplied non-hex
`event_id` is kept unvalidated, and an empty supplied project leaves
`project` empty. -/
def initCexEvent : EventInfo :=
  { message := ("m"), eventID := ("zz"), project := "", timestamp := 3,
    level := 0, logger := "", platform := "", culprit := "", tags := [],
    serverName := "", modules := [], extra := [], interfaces := [] }

/-- Counterexample to claim C3 as stated: `Init` succeeds on an event with
a pre-existing `event_id` "zz" and an empty supplied project, yet the
resulting `event_id` is not a 32-hex string and `project` is empty. -/
theorem init_counterexample_bogus_id_kept :
    (Init initCexEvent "" (List.replicate 16 0) 5 ("h")).toOption.map
        (fun r => (r.eventID, r.project)) = some (("zz"), "") ∧
    ¬ isHex32 ("zz") := by
  exact ⟨rfl, by decide⟩

/-- Claim C3 (amended): `Init` fails if and only if the message is empty;
on success `event_id` is the freshly generated 32-hex id when previously
empty (a pre-existing id is kept unvalidated), `project` falls back to the
supplied project when previously empty (hence is non-empty whenever the
supplied project is), `timestamp` falls back to the current time (and is
non-zero), `level` defaults to `ERROR` and `logger` to "root" when unset,
and an unset `culprit` becomes the culprit of the first interface in list
order whose culprit lookup returns a non-empty string. -/
theorem init_finalization_amended :
    ∀ (e : EventInfo) (project : String) (randBytes : List Nat)
      (now : Nat) (host : String),
    randBytes.length = 16 → (∀ b ∈ randBytes, b < 256) → now ≠ 0 →
    (e.message = "" →
      Init e project randBytes now host = Except.error InitError.emptyMessage) ∧
    (e.message ≠ "" → ∃ r, Init e project randBytes now host = Except.ok r ∧
      r.message = e.message ∧
      r.eventID = (if e.eventID = "" then uuid randBytes else e.eventID) ∧
      (e.eventID = "" → isHex32 r.eventID) ∧
      r.project = (if e.project = "" then project else e.project) ∧
      (project ≠ "" → r.project ≠ "") ∧
      r.timestamp = (if e.timestamp = 0 then now else e.timestamp) ∧
      r.timestamp ≠ 0 ∧
      r.level = (if e.level = 0 then ERROR else e.level) ∧
      r.logger = (if e.logger = "" then ("root") else e.logger) ∧
      r.culprit = (if e.culprit = "" then deriveCulprit e.interfaces
                   else e.culprit) ∧
      deriveCulprit e.interfaces =
        (((e.interfaces.filterMap Iface.culprit).filter (fun s => s ≠ "")).headD "")) := by
  intro e project randBytes now host hlen hb hnow
  constructor
  · intro h
    simp [Init, h]
  · intro h
    refine ⟨{ e with
        project := if e.project = "" then project else e.project,
        eventID := if e.eventID = "" then uuid randBytes else e.eventID,
        timestamp := if e.timestamp = 0 then now else e.timestamp,
        level := if e.level = 0 then ERROR else e.level,
        logger := if e.logger = "" then ("root") else e.logger,
        serverName := if e.serverName = "" then host else e.serverName,
        culprit := if e.culprit = "" then deriveCulprit e.interfaces
                   else e.culprit },
      by rw [Init, if_neg h], rfl, rfl, ?_, rfl, ?_, rfl, ?_, rfl, rfl, rfl,
      deriveCulprit_eq_head_of_nonempty e.interfaces⟩
    · intro hid
      show isHex32 (if e.eventID = "" then uuid randBytes else e.eventID)
      rw [if_pos hid]
      exact uuid_isHex32 hlen hb
    · intro hproj
      show (if e.project = "" then project else e.project) ≠ ""
      split
      · exact hproj
      · next hep => exact hep
    · show (if e.timestamp = 0 then now else e.timestamp) ≠ 0
      split
      · exact hnow
      · next het => exact het

/-! ## Layered default-filling: `Event.Fill` (src/event.go lines 287-335)

In this generation of the source the `Event`'s scalar fields are compared
against their zero values (`""` for strings — including `Level`, which
this generation's `Fill` compares with `""` — and the zero time for
`Timestamp`, modelled as an abstract instant `0`), list fields are
appended, and the `Extra` map merges keys absent so far. -/

/-- Association-list lookup, modelling a Go map index expression. -/
def alookup {β : Type} (k : String) : List (String × β) → Option β
  | [] => none
  | (a, v) :: rest => if k = a then some v else alookup k rest

/-- The `Extra` merge loop of `Event.Fill`: each context entry is added
only when its key is absent from the event's current map.  The Go map is
represented as an association list to which fresh keys are appended. -/
def mergeExtra : List (String × String) → List (String × String) → List (String × String)
  | ev, [] => ev
  | ev, kv :: rest =>
    mergeExtra (if (alookup kv.1 ev).isSome then ev else ev ++ [kv]) rest

/-- An `Event` of the `Fill`/`Context` generation (src/event.go lines
260-280). -/
structure FillEvent where
  message : String
  eventID : String
  project : String
  timestamp : Nat
  level : String
  logger : String
  platform : String
  culprit : String
  serverName : String
  tags : List Tag
  modules : List (List (String × String))
  extra : List (String × String)
  interfaces : List Iface

/-- The body of `Event.Fill`'s loop for one context (src/event.go lines
290-333; identical to the single-context `Event.Fill` at lines 93-138).
Every conditional of the source fills one field from that field's own
current value only, so the sequence of in-place updates is rendered as a
single record construction. -/
def fillOne (event ctx : FillEvent) : FillEvent where
  message := if event.message = "" then ctx.message else event.message
  eventID := if event.eventID = "" then ctx.eventID else event.eventID
  project := if event.project = "" then ctx.project else event.project
  timestamp := if event.timestamp = 0 then ctx.timestamp else event.timestamp
  level := if event.level = "" then ctx.level else event.level
  logger := if event.logger = "" then ctx.logger else event.logger
  platform := if event.platform = "" then ctx.platform else event.platform
  culprit := if event.culprit = "" then ctx.culprit else event.culprit
  serverName := if event.serverName = "" then ctx.serverName else event.serverName
  tags := event.tags ++ ctx.tags
  modules := event.modules ++ ctx.modules
  extra := mergeExtra event.extra ctx.extra
  interfaces := event.interfaces ++ ctx.interfaces

/-- `Event.Fill` (src/event.go lines 287-335): contexts are applied from
the rightmost to the leftmost (`for i := len(contexts) - 1; i >= 0; i--`). -/
def Fill (event : FillEvent) (contexts : List FillEvent) : FillEvent :=
  contexts.reverse.foldl fillOne event

/-- "Keep the current value unless it is unset": one conditional
assignment of `Fill`. -/
def firstSet (x y : String) : String := if x = "" then y else x

/-- `firstSet` for the abstract instant of `Timestamp`. -/
def firstSetNat (x y : Nat) : Nat := if x = 0 then y else x

lemma ite_chain (x y z : String) :
    (if (if x = "" then y else x) = "" then z else if x = "" then y else x)
      = firstSet x (firstSet y z) := by
  by_cases hx : x = "" <;> by_cases hy : y = "" <;> simp [firstSet, hx, hy]

lemma ite_chainNat (x y z : Nat) :
    (if (if x = 0 then y else x) = 0 then z else if x = 0 then y else x)
      = firstSetNat x (firstSetNat y z) := by
  by_cases hx : x = 0 <;> by_cases hy : y = 0 <;> simp [firstSetNat, hx, hy]

lemma option_or_assoc {β : Type} (a b c : Option β) :
    (a.or b).or c = a.or (b.or c) := by
  cases a <;> rfl

lemma alookup_append {β : Type} (k : String) (l₁ l₂ : List (String × β)) :
    alookup k (l₁ ++ l₂) = (alookup k l₁).or (alookup k l₂) := by
  induction l₁ with
  | nil => rfl
  | cons kv rest ih =>
    by_cases hk : k = kv.1
    · simp [alookup, hk, Option.or]
    · simp [alookup, hk, ih]

lemma mergeExtra_alookup : ∀ (ctx ev : List (String × String)) (k : String),
    alookup k (mergeExtra ev ctx) = (alookup k ev).or (alookup k ctx) := by
  intro ctx
  induction ctx with
  | nil => intro ev k; cases h : alookup k ev <;> simp [mergeExtra, alookup, h, Option.or]
  | cons kv rest ih =>
    intro ev k
    rw [mergeExtra, ih]
    by_cases hs : (alookup kv.1 ev).isSome
    · rw [if_pos hs]
      by_cases hk : k = kv.1
      · subst hk
        obtain ⟨v, hv⟩ := Option.isSome_iff_exists.mp hs
        simp [alookup, hv, Option.or]
      · simp [alookup, hk]
    · rw [if_neg hs, alookup_append, option_or_assoc]
      by_cases hk : k = kv.1
      · simp [alookup, hk, Option.or]
      · simp [alookup, hk]

/-- Claim C4: for `fill(event, ctxA, ctxB)` every scalar field of the
result is the event's own value when set, otherwise `ctxB`'s when set,
otherwise `ctxA`'s (so a field set only in `ctxA` survives, a field set in
both contexts is taken from `ctxB`, and the event's own value always
wins); the tags, modules and interfaces lists are the event's entries
followed by the contexts' entries appended; and an extra-map key is looked
up first in the event's own map, then in `ctxB`, then in `ctxA`
(first-writer-wins). -/
theorem fill_two_contexts_characterization :
    ∀ (e ctxA ctxB : FillEvent),
    (Fill e [ctxA, ctxB]).message = firstSet e.message (firstSet ctxB.message ctxA.message) ∧
    (Fill e [ctxA, ctxB]).eventID = firstSet e.eventID (firstSet ctxB.eventID ctxA.eventID) ∧
    (Fill e [ctxA, ctxB]).project = firstSet e.project (firstSet ctxB.project ctxA.project) ∧
    (Fill e [ctxA, ctxB]).timestamp =
      firstSetNat e.timestamp (firstSetNat ctxB.timestamp ctxA.timestamp) ∧
    (Fill e [ctxA, ctxB]).level = firstSet e.level (firstSet ctxB.level ctxA.level) ∧
    (Fill e [ctxA, ctxB]).logger = firstSet e.logger (firstSet ctxB.logger ctxA.logger) ∧
    (Fill e [ctxA, ctxB]).platform =
      firstSet e.platform (firstSet ctxB.platform ctxA.platform) ∧
    (Fill e [ctxA, ctxB]).culprit =
      firstSet e.culprit (firstSet ctxB.culprit ctxA.culprit) ∧
    (Fill e [ctxA, ctxB]).serverName =
      firstSet e.serverName (firstSet ctxB.serverName ctxA.serverName) ∧
    (Fill e [ctxA, ctxB]).tags = e.tags ++ ctxB.tags ++ ctxA.tags ∧
    (Fill e [ctxA, ctxB]).modules = e.modules ++ ctxB.modules ++ ctxA.modules ∧
    (Fill e [ctxA, ctxB]).interfaces =
      e.interfaces ++ ctxB.interfaces ++ ctxA.interfaces ∧
    (∀ k, alookup k (Fill e [ctxA, ctxB]).extra =
      ((alookup k e.extra).or ((alookup k ctxB.extra).or (alookup k ctxA.extra)))) := by
  intro e a b
  have hF : Fill e [a, b] = fillOne (fillOne e b) a := by simp [Fill]
  rw [hF]
  refine ⟨ite_chain _ _ _, ite_chain _ _ _, ite_chain _ _ _, ite_chainNat _ _ _,
    ite_chain _ _ _, ite_chain _ _ _, ite_chain _ _ _, ite_chain _ _ _,
    ite_chain _ _ _, ?_, ?_, ?_, ?_⟩
  · exact rfl
  · exact rfl
  · exact rfl
  · intro k
    show alookup k (mergeExtra (mergeExtra e.extra b.extra) a.extra) = _
    rw [mergeExtra_alookup, mergeExtra_alookup, option_or_assoc]

/-- Witness for C3 (amended) at a concrete event with an empty message. -/
theorem init_finalization_amended_witness :
    Init { initCexEvent with message := "" } ("proj") (List.replicate 16 0) 5 ("h")
      = Except.error InitError.emptyMessage :=
  (init_finalization_amended { initCexEvent with message := "" } ("proj")
    (List.replicate 16 0) 5 ("h") (by decide) (by decide) (by decide)).1 rfl

/-! ## The capture pipeline: `Client.Capture` of src/unnamed/part_006

`Capture(message, event)` merges the caller event over the client's
default context, finalizes with `FillDefaults`, and enqueues without
blocking, dropping when the bounded queue is full. -/

/-- The zero `Event` of the `Fill` generation. -/
def emptyFillEvent : FillEvent :=
  { message := "", eventID := "", project := "", timestamp := 0, level := "",
    logger := "", platform := "", culprit := "", serverName := "", tags := [],
    modules := [], extra := [], interfaces := [] }

/-- `Event.FillDefaults` (src/event.go lines 340-381): fill from a default
context carrying the supplied project, the `ERROR` level, the "root"
logger, the "go" platform, the hostname and the runtime extras; then
lazily generate the event id and timestamp and derive the culprit.  In
this generation `Fill` compares `Level` with `""`, so the `ERROR` default
is modelled by its severity name; the four `runtime.*` extras are the
environment-dependent argument `runtimeExtra`.  The only error path of the
source (a `crypto/rand` read failure in `uuid`) cannot occur in the
model. -/
def FillDefaults (event : FillEvent) (project : String) (randBytes : List Nat)
    (now : Nat) (host : String) (runtimeExtra : List (String × String)) :
    FillEvent :=
  let defaultContext : FillEvent :=
    { message := "", eventID := "", project := project, timestamp := 0,
      level := ("error"), logger := ("root"), platform := ("go"),
      culprit := "", serverName := host, tags := [], modules := [],
      extra := runtimeExtra, interfaces := [] }
  let event := fillOne event defaultContext
  let event :=
    if event.eventID = "" then { event with eventID := uuid randBytes } else event
  let event :=
    if event.timestamp = 0 then { event with timestamp := now } else event
  if event.culprit = "" then
    { event with culprit := deriveCulprit event.interfaces }
  else event

/-- The errors a `Capture` call can write to its result channel:
`ErrClientNotConfigured`, "raven: no message", `ErrEventDropped`. -/
inductive CaptureErr where
  | clientNotConfigured
  | noMessage
  | eventDropped
deriving DecidableEq, Repr

/-- `queuedEvent` (src/unnamed/part_006 lines 220-225): the finalized
event plus the URL and auth header snapshotted at enqueue time. -/
structure QueuedEvent where
  event : FillEvent
  url : String
  authHeader : String

/-- The client state `Capture` reads: default context, whether a
`DropHandler` is installed, the connection-config snapshot, and the
bounded buffered queue channel, modelled as the list of buffered
entries. -/
structure CaptureClient where
  defaultContext : Option FillEvent
  dropHandler : Bool
  url : String
  projectID : String
  authHeader : String
  queue : List QueuedEvent

/-- `MaxQueueBuffer` (src/unnamed/part_006 line 16). -/
def MaxQueueBuffer : Nat := 100

/-- Everything one `Capture` call returns and does: the returned event id,
the writes it performed on the freshly created result channel together
with that channel's capacity (`make(chan error, 1)`), the queue contents
after the call, and the arguments of its `DropHandler` invocations in
order. -/
structure CaptureResult where
  eventID : String
  ch : List CaptureErr
  chCap : Nat
  queue : List QueuedEvent
  dropCalls : List FillEvent

/-- The merge pipeline of `Capture` (src/unnamed/part_006 lines 135-146):
`mergedEvent := &Event{Message: message}` merged with the client's default
context and then the caller event, followed by `FillDefaults(project)`.
`Event.Merge` of this generation is not under src/; it is modelled by the
sibling single-context `Event.Fill` (src/event.go lines 93-138), which
matches its call shape, with a nil context merge as a no-op. -/
def buildMergedEvent (client : CaptureClient) (message : String)
    (event : FillEvent) (randBytes : List Nat) (now : Nat) (host : String)
    (runtimeExtra : List (String × String)) : FillEvent :=
  let mergedEvent : FillEvent := { emptyFillEvent with message := message }
  let mergedEvent :=
    match client.defaultContext with
    | some ctx => fillOne mergedEvent ctx
    | none => mergedEvent
  let mergedEvent := fillOne mergedEvent event
  FillDefaults mergedEvent client.projectID randBytes now host runtimeExtra

/-- `Client.Capture` (src/unnamed/part_006 lines 122-159).  A `none`
client is Go's nil receiver.  The non-blocking `select` enqueues when the
buffered queue has room, and otherwise drops: the `DropHandler`, if any,
is called with the merged event and `ErrEventDropped` is written to the
result channel.  The returned id is `event.EventID` — the caller-supplied
event's id, not the merged event's. -/
def Capture (client : Option CaptureClient) (message : String)
    (event : FillEvent) (randBytes : List Nat) (now : Nat) (host : String)
    (runtimeExtra : List (String × String)) : CaptureResult :=
  match client with
  | none =>
    { eventID := "", ch := [CaptureErr.clientNotConfigured], chCap := 1,
      queue := [], dropCalls := [] }
  | some client =>
    if message = "" then
      { eventID := "", ch := [CaptureErr.noMessage], chCap := 1,
        queue := client.queue, dropCalls := [] }
    else
      let mergedEvent :=
        buildMergedEvent client message event randBytes now host runtimeExtra
      if client.queue.length < MaxQueueBuffer then
        { eventID := event.eventID, ch := [], chCap := 1,
          queue := client.queue
            ++ [⟨mergedEvent, client.url, client.authHeader⟩],
          dropCalls := [] }
      else
        { eventID := event.eventID, ch := [CaptureErr.eventDropped], chCap := 1,
          queue := client.queue,
          dropCalls := if client.dropHandler then [mergedEvent] else [] }

/-- Claim C1: when the bounded queue (capacity `MaxQueueBuffer = 100`) is
full, `Capture` of a valid event enqueues nothing, invokes the drop
handler (if set) exactly once with the dropped merged event, and writes
the `ErrEventDropped` sentinel exactly once to the capacity-1 result
channel; with room in the queue the event is enqueued and no drop error is
written. -/
theorem capture_full_queue_drop_policy :
    ∀ (client : CaptureClient) (message : String) (event : FillEvent)
      (randBytes : List Nat) (now : Nat) (host : String)
      (runtimeExtra : List (String × String)),
    message ≠ "" →
    MaxQueueBuffer = 100 ∧
    (client.queue.length = MaxQueueBuffer →
      (Capture (some client) message event randBytes now host runtimeExtra).queue
          = client.queue ∧
      (Capture (some client) message event randBytes now host runtimeExtra).ch
          = [CaptureErr.eventDropped] ∧
      (Capture (some client) message event randBytes now host runtimeExtra).chCap = 1 ∧
      (Capture (some client) message event randBytes now host runtimeExtra).dropCalls
          = (if client.dropHandler
             then [buildMergedEvent client message event randBytes now host runtimeExtra]
             else [])) ∧
    (client.queue.length < MaxQueueBuffer →
      (Capture (some client) message event randBytes now host runtimeExtra).queue
          = client.queue
              ++ [⟨buildMergedEvent client message event randBytes now host runtimeExtra,
                   client.url, client.authHeader⟩] ∧
      (Capture (some client) message event randBytes now host runtimeExtra).ch = [] ∧
      (Capture (some client) message event randBytes now host runtimeExtra).dropCalls
          = []) := by
  intro client message event randBytes now host runtimeExtra hmsg
  refine ⟨rfl, ?_, ?_⟩
  · intro hfull
    have hnl : ¬ client.queue.length < MaxQueueBuffer := by omega
    have hC : Capture (some client) message event randBytes now host runtimeExtra =
        { eventID := event.eventID, ch := [CaptureErr.eventDropped], chCap := 1,
          queue := client.queue,
          dropCalls :=
            if client.dropHandler
            then [buildMergedEvent client message event randBytes now host runtimeExtra]
            else [] } := by
      simp only [Capture, if_neg hmsg, if_neg hnl]
    rw [hC]
    exact ⟨rfl, rfl, rfl, rfl⟩
  · intro hlt
    have hC : Capture (some client) message event randBytes now host runtimeExtra =
        { eventID := event.eventID, ch := [], chCap := 1,
          queue := client.queue
            ++ [⟨buildMergedEvent client message event randBytes now host runtimeExtra,
                 client.url, client.authHeader⟩],
          dropCalls := [] } := by
      simp only [Capture, if_neg hmsg, if_pos hlt]
    rw [hC]
    exact ⟨rfl, rfl, rfl⟩

/-- A client whose queue holds exactly `MaxQueueBuffer` entries. -/
def fullQueueClient : CaptureClient :=
  { defaultContext := none, dropHandler := true, url := "", projectID := "",
    authHeader := "", queue := List.replicate 100 ⟨emptyFillEvent, "", ""⟩ }

/-- Witness for C1: a concrete full-queue capture writes the drop
sentinel. -/
theorem capture_full_queue_drop_policy_witness :
    (Capture (some fullQueueClient) ("boom") emptyFillEvent
      (List.replicate 16 0) 5 ("h") []).ch = [CaptureErr.eventDropped] :=
  ((capture_full_queue_drop_policy fullQueueClient ("boom") emptyFillEvent
      (List.replicate 16 0) 5 ("h") [] (by decide)).2.1
    (by simp [fullQueueClient, MaxQueueBuffer])).2.1

/-- A configured client with an empty queue, for the C2 failing input. -/
def c2Client : CaptureClient :=
  { defaultContext := none, dropHandler := false, url := "", projectID := ("pid"),
    authHeader := "", queue := [] }

/-- Claim C2 is violated by the code (src/unnamed/part_006 line 158): a
successful `Capture` of a caller event that carried no id returns the
empty string to the caller, while the finalized event actually enqueued
carries the freshly generated 32-hex id — the source returns
`event.EventID` instead of the enqueued `mergedEvent.EventID`. -/
theorem capture_returns_stale_eventID :
    (Capture (some c2Client) ("boom") emptyFillEvent
        (List.replicate 16 0) 5 ("h") []).eventID = "" ∧
    (Capture (some c2Client) ("boom") emptyFillEvent
        (List.replicate 16 0) 5 ("h") []).queue.map (fun q => q.event.eventID)
      = [uuid (List.replicate 16 0)] ∧
    uuid (List.replicate 16 0) ≠ "" ∧
    isHex32 (uuid (List.replicate 16 0)) ∧
    (Capture (some c2Client) ("boom") emptyFillEvent
        (List.replicate 16 0) 5 ("h") []).ch = [] := by
  exact ⟨rfl, by decide, by decide, by decide, rfl⟩

/-! ## Transport encoding: `serializedPacket` / `Event.serialize`

Payloads above 1000 bytes are zlib-deflated at best compression and
streamed through `base64.NewEncoder(base64.StdEncoding, ·)`; base64 is
implemented here and proved invertible, while the zlib deflate/inflate
pair (Go standard library, outside this repository) is abstracted as a
pair of functions assumed mutually inverse. -/

/-- The standard base64 alphabet, as byte values. -/
def b64Table : List Nat :=
  ("ABCDEFGHIJKLMNOPQRSTUVWXYZabcdefghijklmnopqrstuvwxyz0123456789+/").toList.map
    Char.toNat

/-- The base64 character (byte value) for a 6-bit group. -/
def b64c (n : Nat) : Nat := b64Table.getD n 0

/-- `base64.StdEncoding` of a byte stream, with `=` (byte 61) padding:
each 3-byte group becomes 4 alphabet bytes; a trailing 1- or 2-byte group
is padded. -/
def b64Encode : List Nat → List Nat
  | [] => []
  | [b1] => [b64c (b1 / 4), b64c (b1 % 4 * 16), 61, 61]
  | [b1, b2] => [b64c (b1 / 4), b64c (b1 % 4 * 16 + b2 / 16), b64c (b2 % 16 * 4), 61]
  | b1 :: b2 :: b3 :: rest =>
    b64c (b1 / 4) :: b64c (b1 % 4 * 16 + b2 / 16) :: b64c (b2 % 16 * 4 + b3 / 64)
      :: b64c (b3 % 64) :: b64Encode rest

/-- Index of a byte in a list (first occurrence). -/
def idxInTable (c : Nat) : List Nat → Option Nat
  | [] => none
  | x :: xs => if x = c then some 0 else (idxInTable c xs).map (· + 1)

/-- The 6-bit value of a base64 alphabet byte. -/
def b64idx (c : Nat) : Option Nat := idxInTable c b64Table

/-- Standard base64 decoding of a padded stream. -/
def b64Decode : List Nat → Option (List Nat)
  | [] => some []
  | c1 :: c2 :: c3 :: c4 :: rest =>
    if rest = [] ∧ c3 = 61 ∧ c4 = 61 then
      (b64idx c1).bind fun n1 => (b64idx c2).map fun n2 => [n1 * 4 + n2 / 16]
    else if rest = [] ∧ c4 = 61 then
      (b64idx c1).bind fun n1 => (b64idx c2).bind fun n2 =>
        (b64idx c3).map fun n3 => [n1 * 4 + n2 / 16, n2 % 16 * 16 + n3 / 4]
    else
      (b64idx c1).bind fun n1 => (b64idx c2).bind fun n2 =>
        (b64idx c3).bind fun n3 => (b64idx c4).bind fun n4 =>
          (b64Decode rest).map fun tl =>
            (n1 * 4 + n2 / 16) :: (n2 % 16 * 16 + n3 / 4) :: (n3 % 4 * 64 + n4) :: tl
  | _ => none

lemma b64idx_b64c : ∀ n < 64, b64idx (b64c n) = some n := by decide

lemma b64c_ne_pad : ∀ n < 64, b64c n ≠ 61 := by decide

lemma b64_roundtrip : ∀ (bs : List Nat), (∀ b ∈ bs, b < 256) →
    b64Decode (b64Encode bs) = some bs := by
  intro bs
  induction bs using b64Encode.induct with
  | case1 => intro _; rfl
  | case2 b1 =>
    intro hb
    have h1 : b1 < 256 := hb b1 (by simp)
    have e1 := b64idx_b64c (b1 / 4) (by omega)
    have e2 := b64idx_b64c (b1 % 4 * 16) (by omega)
    simp [b64Encode, b64Decode, e1, e2]
    omega
  | case3 b1 b2 =>
    intro hb
    have h1 : b1 < 256 := hb b1 (by simp)
    have h2 : b2 < 256 := hb b2 (by simp)
    have e1 := b64idx_b64c (b1 / 4) (by omega)
    have e2 := b64idx_b64c (b1 % 4 * 16 + b2 / 16) (by omega)
    have e3 := b64idx_b64c (b2 % 16 * 4) (by omega)
    have hne := b64c_ne_pad (b2 % 16 * 4) (by omega)
    simp [b64Encode, b64Decode, e1, e2, e3, hne]
    omega
  | case4 b1 b2 b3 rest ih =>
    intro hb
    have h1 : b1 < 256 := hb b1 (by simp)
    have h2 : b2 < 256 := hb b2 (by simp)
    have h3 : b3 < 256 := hb b3 (by simp)
    have e1 := b64idx_b64c (b1 / 4) (by omega)
    have e2 := b64idx_b64c (b1 % 4 * 16 + b2 / 16) (by omega)
    have e3 := b64idx_b64c (b2 % 16 * 4 + b3 / 64) (by omega)
    have e4 := b64idx_b64c (b3 % 64) (by omega)
    have hne := b64c_ne_pad (b3 % 64) (by omega)
    have hrest : b64Decode (b64Encode rest) = some rest :=
      ih (fun b hbm => hb b (by simp [hbm]))
    simp [b64Encode, b64Decode, e1, e2, e3, e4, hne, hrest]
    omega

/-- `serializedPacket` / `Event.serialize` (src/event.go lines 469-486,
src/client.go lines 373-388): JSON bigger than 1000 bytes is deflated at
`zlib.BestCompression` and streamed through the standard base64 encoder,
with content type application/octet-stream; otherwise the raw JSON is the
body, with content type application/json.  The zlib codec is Go
standard-library code outside this repository and is abstracted as the
function argument `deflate`. -/
def serializedPacket (deflate : List Nat → List Nat) (packetJSON : List Nat) :
    List Nat × String :=
  if packetJSON.length > 1000 then
    (b64Encode (deflate packetJSON), ("application/octet-stream"))
  else (packetJSON, ("application/json"))

/-- Claim C6: a serialized event of at most 1000 JSON bytes is transmitted
as the raw JSON with content type application/json; one strictly larger
than 1000 bytes is transmitted as base64(deflate(JSON)) with content type
application/octet-stream, and base64-decoding then inflating the body
reproduces the JSON byte-for-byte (for any inverse zlib pair). -/
theorem serializedPacket_threshold_and_roundtrip :
    ∀ (deflate inflate : List Nat → List Nat) (packetJSON : List Nat),
    (∀ bs, inflate (deflate bs) = bs) →
    (∀ b ∈ deflate packetJSON, b < 256) →
    (packetJSON.length ≤ 1000 →
      serializedPacket deflate packetJSON = (packetJSON, ("application/json"))) ∧
    (packetJSON.length > 1000 →
      serializedPacket deflate packetJSON =
        (b64Encode (deflate packetJSON), ("application/octet-stream")) ∧
      (b64Decode (b64Encode (deflate packetJSON))).map inflate = some packetJSON) := by
  intro deflate inflate packetJSON hinv hbytes
  constructor
  · intro hle
    have : ¬ packetJSON.length > 1000 := by omega
    simp [serializedPacket, this]
  · intro hgt
    refine ⟨by simp [serializedPacket, hgt], ?_⟩
    rw [b64_roundtrip (deflate packetJSON) hbytes]
    simp [hinv]

/-- Witness for C6: a 999-byte payload goes out raw as application/json;
a 1001-byte payload round-trips through base64 ∘ deflate (witnessed with
the identity codec pair). -/
theorem serializedPacket_threshold_witness :
    serializedPacket id (List.replicate 999 65) =
      (List.replicate 999 65, ("application/json")) ∧
    (b64Decode (b64Encode (id (List.replicate 1001 65)))).map id =
      some (List.replicate 1001 65) :=
  ⟨(serializedPacket_threshold_and_roundtrip id id (List.replicate 999 65)
      (fun _ => rfl)
      (by intro b hb; rw [id, List.mem_replicate] at hb; omega)).1
    (by rw [List.length_replicate]; omega),
   ((serializedPacket_threshold_and_roundtrip id id (List.replicate 1001 65)
      (fun _ => rfl)
      (by intro b hb; rw [id, List.mem_replicate] at hb; omega)).2
    (by rw [List.length_replicate]; omega)).2⟩

/-! ## Tags on the wire: `Tag.MarshalJSON` / `Tags.UnmarshalJSON`

Tags serialize as 2-element arrays, not objects, so duplicate keys and
order survive a round trip. -/

/-- `Tag.MarshalJSON` (src/event.go lines 407-409):
`json.Marshal([2]string{tag.Key, tag.Value})`. -/
def marshalTag (tag : Tag) : J := J.arr [J.str tag.Key, J.str tag.Value]

/-- `encoding/json` marshalling of `Tags` (`[]Tag`): the array of the
tags' own `MarshalJSON` values, in slice order. -/
def marshalTags (tags : List Tag) : J := J.arr (tags.map marshalTag)

/-- Decoding a JSON value into a Go `string`. -/
def strOf : J → Option String
  | J.str s => some s
  | _ => none

/-- `Tag.UnmarshalJSON` (src/event.go lines 411-418): `json.Unmarshal`
into `[2]string` — surplus JSON array elements are discarded, missing
ones leave the zero value `""`, a non-array document or a non-string
element is an error. -/
def unmarshalTag : J → Option Tag
  | J.arr [] => some ⟨"", ""⟩
  | J.arr [a] => (strOf a).map fun s => Tag.mk s ""
  | J.arr (a :: b :: _) =>
    (strOf a).bind fun s1 => (strOf b).map fun s2 => Tag.mk s1 s2
  | _ => none

/-- `Tags.UnmarshalJSON` (src/event.go lines 420-446): a JSON array
(leading `[`) decodes element-wise through `Tag.UnmarshalJSON`; a JSON
object (leading `{`) decodes as a `map[string]string` converted to pairs;
anything else is "raven: unable to unmarshal JSON". -/
def unmarshalTags : J → Option (List Tag)
  | J.arr l => l.mapM unmarshalTag
  | J.obj kvs => kvs.mapM fun kv => (strOf kv.2).map fun v => Tag.mk kv.1 v
  | _ => none

/-- Claim C8: every ordered tag list — duplicate keys included — marshals
to the list of its 2-element string arrays in insertion order, and
unmarshalling that JSON restores the original ordered list: marshal
followed by unmarshal is the identity on tag lists. -/
theorem tags_json_roundtrip :
    ∀ (tags : List Tag),
    marshalTags tags =
      J.arr (tags.map fun t => J.arr [J.str t.Key, J.str t.Value]) ∧
    unmarshalTags (marshalTags tags) = some tags := by
  intro tags
  constructor
  · rfl
  · show (tags.map marshalTag).mapM unmarshalTag = some tags
    induction tags with
    | nil => rfl
    | cons t ts ih =>
      have h : unmarshalTag (marshalTag t) = some t := by cases t; rfl
      simp only [List.map_cons, List.mapM_cons, h, ih, Option.pure_def,
        Option.bind_eq_bind, Option.some_bind]

/-! ## The JSON object of an event: `Event.JSON` and `Timestamp.MarshalJSON`

`Event.JSON` marshals the event, gathers the attached interfaces into a
`map[string]Interface` keyed by `Class()`, and when the map is non-empty
splices its marshalled fields into the event's object (the final `}` is
overwritten with `,` and the map object minus its `{` appended).  At the
structural level the splice concatenates the two objects' field lists. -/

/-- A UTC instant, as the civil fields `time.Time(t).UTC()` exposes to the
layout `"2006-01-02T15:04:05"` plus the sub-second nanoseconds the layout
does not print. -/
structure TS where
  year : Nat
  month : Nat
  day : Nat
  hour : Nat
  minute : Nat
  second : Nat
  nano : Nat
deriving DecidableEq, Repr

/-- A decimal digit character. -/
def digitChar (n : Nat) : Char := (("0123456789").toList).getD (n % 10) '0'

/-- Two zero-padded decimal digits. -/
def pad2 (n : Nat) : Chars := [digitChar (n / 10), digitChar n]

/-- Four zero-padded decimal digits. -/
def pad4 (n : Nat) : Chars :=
  [digitChar (n / 1000), digitChar (n / 100), digitChar (n / 10), digitChar n]

/-- `Timestamp.MarshalJSON` (src/client.go lines 40-42):
`time.Time(t).UTC().Format("2006-01-02T15:04:05")` — the UTC instant with
second precision and no timezone suffix.  The surrounding JSON quotes are
the `J.str` constructor. -/
def formatTimestamp (t : TS) : String :=
  String.mk (pad4 t.year ++ ('-' :: pad2 t.month) ++ ('-' :: pad2 t.day)
    ++ ('T' :: pad2 t.hour) ++ (':' :: pad2 t.minute) ++ (':' :: pad2 t.second))

/-- The `Event` as the wire codec sees it; `timestamp` carries the civil
UTC fields used by `Timestamp.MarshalJSON`, `level` is the integer
`Severity` generation (src/client.go line 25). -/
structure CodecEvent where
  message : String
  eventID : String
  project : String
  timestamp : TS
  level : Int
  logger : String
  platform : String
  culprit : String
  serverName : String
  tags : List Tag
  modules : List (List (String × String))
  extra : List (String × J)
  interfaces : List Iface

/-- The field list of `json.Marshal(event)` per the struct tags
(src/event.go lines 260-280): `message`, `event_id`, `project`,
`timestamp`, `level` and `logger` always, then the `omitempty`
optionals when non-zero.  Go maps (`modules` elements, `extra`) render as
objects from their association lists. -/
def marshalEventFields (e : CodecEvent) : List (String × J) :=
  [(("message"), J.str e.message),
   (("event_id"), J.str e.eventID),
   (("project"), J.str e.project),
   (("timestamp"), J.str (formatTimestamp e.timestamp)),
   (("level"), J.num e.level),
   (("logger"), J.str e.logger)]
  ++ (if e.platform = "" then [] else [(("platform"), J.str e.platform)])
  ++ (if e.culprit = "" then [] else [(("culprit"), J.str e.culprit)])
  ++ (if e.tags.isEmpty then [] else [(("tags"), marshalTags e.tags)])
  ++ (if e.serverName = "" then [] else [(("server_name"), J.str e.serverName)])
  ++ (if e.modules.isEmpty then [] else
       [(("modules"),
         J.arr (e.modules.map fun m => J.obj (m.map fun kv => (kv.1, J.str kv.2))))])
  ++ (if e.extra.isEmpty then [] else [(("extra"), J.obj e.extra)])

/-- Assignment into the `map[string]Interface` of `Event.JSON`, fused with
`encoding/json`'s sorted-key marshalling of Go maps: the map is
represented as a key-sorted association list, and assigning an existing
key replaces its entry. -/
def insertSorted (k : String) (v : J) : List (String × J) → List (String × J)
  | [] => [(k, v)]
  | (k', v') :: rest =>
    if k = k' then (k, v) :: rest
    else if k < k' then (k, v) :: (k', v') :: rest
    else (k', v') :: insertSorted k v rest

/-- The marshalled fields of the class→interface map built by the
`for _, inter := range event.Interfaces` loop of `Event.JSON`. -/
def ifaceEntries (interfaces : List Iface) : List (String × J) :=
  interfaces.foldl (fun acc i => insertSorted i.Class i.payload acc) []

/-- `Event.JSON` (src/event.go lines 383-398), structurally: the event's
own object fields, and — when any interface is attached — the interface
map's fields spliced on. -/
def eventJSON (e : CodecEvent) : List (String × J) :=
  let eventFields := marshalEventFields e
  let entries := ifaceEntries e.interfaces
  if entries.isEmpty then eventFields else eventFields ++ entries

/-- The payload of the last attached interface bearing a given class tag
(the last writer into the map). -/
def lastPayload (tag : String) : List Iface → Option J
  | [] => none
  | i :: rest =>
    (lastPayload tag rest).or (if i.Class = tag then some i.payload else none)

lemma option_or_none {β : Type} (a : Option β) : a.or none = a := by
  cases a <;> rfl

lemma option_or_isSome {β : Type} (a b : Option β) :
    (a.or b).isSome = (a.isSome || b.isSome) := by
  cases a <;> rfl

lemma alookup_insertSorted_self (k : String) (v : J) (l : List (String × J)) :
    alookup k (insertSorted k v l) = some v := by
  induction l with
  | nil => simp [insertSorted, alookup]
  | cons kv rest ih =>
    rcases kv with ⟨k', v'⟩
    by_cases h1 : k = k'
    · simp [insertSorted, h1, alookup]
    · by_cases h2 : k < k'
      · simp [insertSorted, h1, h2, alookup]
      · simp [insertSorted, h1, h2, alookup, ih]

lemma alookup_insertSorted_ne (k j : String) (v : J) (l : List (String × J))
    (hjk : j ≠ k) : alookup j (insertSorted k v l) = alookup j l := by
  induction l with
  | nil => simp [insertSorted, alookup, hjk]
  | cons kv rest ih =>
    rcases kv with ⟨k', v'⟩
    by_cases h1 : k = k'
    · subst h1
      simp [insertSorted, alookup, hjk]
    · by_cases h2 : k < k'
      · simp [insertSorted, h1, h2, alookup, hjk]
      · simp [insertSorted, h1, h2, alookup, ih]

lemma foldl_insertSorted_alookup :
    ∀ (ifs : List Iface) (acc : List (String × J)) (tag : String),
    alookup tag (ifs.foldl (fun acc i => insertSorted i.Class i.payload acc) acc)
      = (lastPayload tag ifs).or (alookup tag acc) := by
  intro ifs
  induction ifs with
  | nil => intro acc tag; rfl
  | cons i rest ih =>
    intro acc tag
    rw [List.foldl_cons, ih, lastPayload, option_or_assoc]
    congr 1
    by_cases htag : tag = i.Class
    · subst htag
      rw [alookup_insertSorted_self, if_pos rfl]
      rfl
    · rw [alookup_insertSorted_ne _ _ _ _ htag, if_neg (fun h => htag h.symm)]
      rfl

lemma ifaceEntries_alookup (ifs : List Iface) (tag : String) :
    alookup tag (ifaceEntries ifs) = lastPayload tag ifs := by
  rw [ifaceEntries, foldl_insertSorted_alookup]
  exact option_or_none _

lemma insertSorted_mem_keys (k x : String) (v : J) (l : List (String × J)) :
    x ∈ (insertSorted k v l).map Prod.fst ↔ x = k ∨ x ∈ l.map Prod.fst := by
  induction l with
  | nil => simp [insertSorted]
  | cons kv rest ih =>
    rcases kv with ⟨k', v'⟩
    by_cases h1 : k = k'
    · subst h1
      have he : insertSorted k v ((k, v') :: rest) = (k, v) :: rest := by
        simp [insertSorted]
      rw [he]
      simp only [List.map_cons, List.mem_cons]
      tauto
    · by_cases h2 : k < k'
      · have he : insertSorted k v ((k', v') :: rest)
            = (k, v) :: (k', v') :: rest := by
          simp [insertSorted, h1, h2]
        rw [he]
        simp only [List.map_cons, List.mem_cons]
      · have he : insertSorted k v ((k', v') :: rest)
            = (k', v') :: insertSorted k v rest := by
          simp [insertSorted, h1, h2]
        rw [he]
        simp only [List.map_cons, List.mem_cons, ih]
        tauto

lemma insertSorted_pairwise (k : String) (v : J) (l : List (String × J))
    (h : (l.map Prod.fst).Pairwise (· < ·)) :
    ((insertSorted k v l).map Prod.fst).Pairwise (· < ·) := by
  induction l with
  | nil => simp [insertSorted]
  | cons kv rest ih =>
    rcases kv with ⟨k', v'⟩
    simp only [List.map_cons, List.pairwise_cons] at h
    obtain ⟨hk', hrest⟩ := h
    by_cases h1 : k = k'
    · subst h1
      have he : insertSorted k v ((k, v') :: rest) = (k, v) :: rest := by
        simp [insertSorted]
      rw [he]
      simp only [List.map_cons, List.pairwise_cons]
      exact ⟨hk', hrest⟩
    · by_cases h2 : k < k'
      · have he : insertSorted k v ((k', v') :: rest)
            = (k, v) :: (k', v') :: rest := by
          simp [insertSorted, h1, h2]
        rw [he]
        simp only [List.map_cons, List.pairwise_cons]
        refine ⟨?_, hk', hrest⟩
        intro x hx
        rcases List.mem_cons.mp hx with hxe | hxm
        · exact hxe ▸ h2
        · exact lt_trans h2 (hk' x hxm)
      · have h3 : k' < k := by
          rcases lt_trichotomy k k' with h | h | h
          · exact absurd h h2
          · exact absurd h h1
          · exact h
        have he : insertSorted k v ((k', v') :: rest)
            = (k', v') :: insertSorted k v rest := by
          simp [insertSorted, h1, h2]
        rw [he]
        simp only [List.map_cons, List.pairwise_cons]
        refine ⟨?_, ih hrest⟩
        intro x hx
        rcases (insertSorted_mem_keys k x v rest).mp hx with hxk | hxm
        · exact hxk ▸ h3
        · exact hk' x hxm

lemma foldl_insertSorted_pairwise :
    ∀ (ifs : List Iface) (acc : List (String × J)),
    (acc.map Prod.fst).Pairwise (· < ·) →
    (((ifs.foldl (fun acc i => insertSorted i.Class i.payload acc) acc).map
        Prod.fst).Pairwise (· < ·)) := by
  intro ifs
  induction ifs with
  | nil => intro acc h; exact h
  | cons i rest ih =>
    intro acc h
    rw [List.foldl_cons]
    exact ih _ (insertSorted_pairwise _ _ _ h)

lemma ifaceEntries_keys_nodup (ifs : List Iface) :
    ((ifaceEntries ifs).map Prod.fst).Nodup := by
  have h := foldl_insertSorted_pairwise ifs [] (by simp)
  exact h.imp (fun hlt => ne_of_lt hlt)

lemma alookup_isSome_iff {β : Type} (k : String) (l : List (String × β)) :
    (alookup k l).isSome ↔ k ∈ l.map Prod.fst := by
  induction l with
  | nil => simp [alookup]
  | cons kv rest ih =>
    by_cases h : k = kv.1
    · simp [alookup, h]
    · simp [alookup, h, ih]

lemma lastPayload_isSome_iff (tag : String) (ifs : List Iface) :
    (lastPayload tag ifs).isSome ↔ tag ∈ ifs.map Iface.Class := by
  induction ifs with
  | nil => simp [lastPayload]
  | cons i rest ih =>
    by_cases h : i.Class = tag
    · simp [lastPayload, option_or_isSome, ih, h, eq_comm]
    · have h' : ¬ tag = i.Class := fun hh => h hh.symm
      simp [lastPayload, option_or_isSome, ih, h, h']

lemma eventJSON_eq (e : CodecEvent) :
    eventJSON e = marshalEventFields e ++ ifaceEntries e.interfaces := by
  rw [eventJSON]
  split
  · next h =>
    rw [List.isEmpty_iff.mp h, List.append_nil]
  · rfl

lemma digitChar_mem (n : Nat) : digitChar n ∈ (("0123456789-T:").toList) := by
  have h : n % 10 < 10 := Nat.mod_lt _ (by omega)
  have hall : ∀ m < 10,
      (("0123456789").toList).getD m '0' ∈ (("0123456789-T:").toList) := by decide
  exact hall _ h

lemma pad2_mem (n : Nat) {c : Char} (h : c ∈ pad2 n) :
    c ∈ (("0123456789-T:").toList) := by
  simp only [pad2, List.mem_cons, List.not_mem_nil, or_false] at h
  rcases h with h | h <;> exact h ▸ digitChar_mem _

lemma pad4_mem (n : Nat) {c : Char} (h : c ∈ pad4 n) :
    c ∈ (("0123456789-T:").toList) := by
  simp only [pad4, List.mem_cons, List.not_mem_nil, or_false] at h
  rcases h with h | h | h | h <;> exact h ▸ digitChar_mem _

/-- Claim C7: `Event.JSON` is a single JSON object: the event's own
marshalled fields followed by the interface map's fields — exactly one
entry per distinct attached classification tag, mapping to the payload of
the last interface bearing that tag (last writer wins on duplicates); and
the timestamp field is the UTC instant rendered "YYYY-MM-DDTHH:MM:SS" —
19 characters of digits and date separators, independent of the
sub-second part, with no timezone suffix. -/
theorem eventJSON_interface_union_and_timestamp :
    (∀ e : CodecEvent,
      eventJSON e = marshalEventFields e ++ ifaceEntries e.interfaces) ∧
    (∀ (ifs : List Iface) (tag : String),
      alookup tag (ifaceEntries ifs) = lastPayload tag ifs) ∧
    (∀ ifs : List Iface, ((ifaceEntries ifs).map Prod.fst).Nodup) ∧
    (∀ (ifs : List Iface) (tag : String),
      tag ∈ (ifaceEntries ifs).map Prod.fst ↔ tag ∈ ifs.map Iface.Class) ∧
    (∀ e : CodecEvent,
      alookup ("timestamp") (eventJSON e) =
        some (J.str (formatTimestamp e.timestamp))) ∧
    (∀ t : TS, (formatTimestamp t).data.length = 19) ∧
    (∀ (t : TS) (n : Nat), formatTimestamp { t with nano := n } = formatTimestamp t) ∧
    (∀ (t : TS) (c : Char), c ∈ (formatTimestamp t).data →
      c ∈ (("0123456789-T:").toList)) := by
  refine ⟨eventJSON_eq, ifaceEntries_alookup, ifaceEntries_keys_nodup, ?_, ?_, ?_, ?_, ?_⟩
  · intro ifs tag
    rw [← alookup_isSome_iff, ifaceEntries_alookup]
    exact lastPayload_isSome_iff tag ifs
  · intro e
    rw [eventJSON_eq, alookup_append]
    have h2 : alookup ("timestamp") (marshalEventFields e) =
        some (J.str (formatTimestamp e.timestamp)) := by
      simp [marshalEventFields, alookup]
    rw [h2]
    rfl
  · intro t
    rfl
  · intro t n
    rfl
  · intro t c hc
    replace hc : c ∈ pad4 t.year ++ ('-' :: pad2 t.month) ++ ('-' :: pad2 t.day)
        ++ ('T' :: pad2 t.hour) ++ (':' :: pad2 t.minute)
        ++ (':' :: pad2 t.second) := hc
    simp only [List.mem_append, List.mem_cons] at hc
    rcases hc with ((((h | h) | h) | h) | h) | h
    · exact pad4_mem _ h
    · rcases h with h | h
      · exact h ▸ (by decide)
      · exact pad2_mem _ h
    · rcases h with h | h
      · exact h ▸ (by decide)
      · exact pad2_mem _ h
    · rcases h with h | h
      · exact h ▸ (by decide)
      · exact pad2_mem _ h
    · rcases h with h | h
      · exact h ▸ (by decide)
      · exact pad2_mem _ h
    · rcases h with h | h
      · exact h ▸ (by decide)
      · exact pad2_mem _ h

/-- Witness for C7: the layout separator `T` of a concrete rendered
timestamp is among the digit/separator characters. -/
theorem eventJSON_interface_union_and_timestamp_witness :
    'T' ∈ (formatTimestamp ⟨2020, 1, 2, 3, 4, 5, 6⟩).data ∧
    'T' ∈ (("0123456789-T:").toList) :=
  ⟨by decide,
   eventJSON_interface_union_and_timestamp.2.2.2.2.2.2.2
     ⟨2020, 1, 2, 3, 4, 5, 6⟩ 'T' (by decide)⟩

/-- Claim C9: a nil client makes `Capture` a total no-op that enqueues and
delivers nothing, invokes no drop handler, returns an empty id, and writes
the `ErrClientNotConfigured` sentinel exactly once to the returned
capacity-1 channel, so a caller reading that channel is never left
hanging. -/
theorem capture_nil_client_noop :
    ∀ (message : String) (event : FillEvent) (randBytes : List Nat)
      (now : Nat) (host : String) (runtimeExtra : List (String × String)),
    Capture none message event randBytes now host runtimeExtra =
      { eventID := "", ch := [CaptureErr.clientNotConfigured], chCap := 1,
        queue := [], dropCalls := [] } := by
  intro _ _ _ _ _ _
  rfl
